import Mathlib

/-!
Verification of the EfficientNet architecture builder (`efficientnet.py`).

The Python source is shallowly embedded over exact rationals: Python floats
become `ℚ`, Python ints become `ℤ`, `int(x)` (truncation toward zero) becomes
`pyTrunc`, Python `//` (floor division) becomes `Int.floor` of the rational
quotient, and the Keras layer graph becomes an explicit expression tree
(`Tensor`).  Fallible paths (`assert`, `ValueError`) are modelled with
`Except String`.
-/

/-- Python `int(x)`: truncation toward zero. -/
def pyTrunc (q : ℚ) : ℤ :=
  if q < 0 then ⌈q⌉ else ⌊q⌋

/-- Translation of `round_filters(filters, width_coefficient, depth_divisor, min_depth)`
(`efficientnet.py` lines 113-130).  Python truthiness of `width_coefficient` and
`min_depth` is modelled by comparison with `0`; `min_depth` being `None` is
modelled by `Option.none`.  `int(filters + divisor / 2) // divisor * divisor`
becomes truncation followed by a floored division, which is exact for both the
int-divisor and the float-divisor call sites. -/
def round_filters (filters width_coefficient depth_divisor : ℚ)
    (min_depth : Option ℚ) : ℚ :=
  if width_coefficient = 0 then filters
  else
    let f := filters * width_coefficient
    let md : ℚ :=
      match min_depth with
      | none => depth_divisor
      | some m => if m = 0 then depth_divisor else m
    let new_filters : ℚ :=
      max md (((⌊((pyTrunc (f + depth_divisor / 2) : ℤ) : ℚ) / depth_divisor⌋ : ℤ) : ℚ)
        * depth_divisor)
    let corrected :=
      if new_filters < (9 / 10) * f then new_filters + depth_divisor else new_filters
    ((pyTrunc corrected : ℤ) : ℚ)

/-- Translation of `round_repeats(repeats, depth_coefficient)`
(`efficientnet.py` lines 134-141). -/
def round_repeats (repeats : ℤ) (depth_coefficient : ℚ) : ℤ :=
  if depth_coefficient = 0 then repeats
  else ⌈depth_coefficient * (repeats : ℚ)⌉

/-- Reading of claim C2's formula for `round_filters`, written from the claim's
own words: `max(m, floor((f*w + d/2) / d) * d)`, plus one additional `d` when
that value is below `0.9 * f * w`, truncated to an integer, with `min_depth`
defaulting to `d` when absent, and `f` returned unchanged when `w` is zero. -/
def round_filters_claim (filters width_coefficient depth_divisor : ℚ)
    (min_depth : Option ℚ) : ℚ :=
  if width_coefficient = 0 then filters
  else
    let f := filters * width_coefficient
    let md : ℚ := min_depth.getD depth_divisor
    let v : ℚ :=
      max md (((⌊(f + depth_divisor / 2) / depth_divisor⌋ : ℤ) : ℚ) * depth_divisor)
    let v := if v < (9 / 10) * f then v + depth_divisor else v
    ((pyTrunc v : ℤ) : ℚ)

/-- Expression tree for the Keras layer graph built by `efficientnet.py`.
Each constructor records one layer application with the hyperparameters the
source passes to it (weight initialisers and batch-norm momentum/epsilon are
training details with no bearing on graph structure and are omitted). -/
inductive Tensor where
  | input : Tensor
  | conv2d (filters : ℚ) (kernel_size strides : List ℤ) (use_bias : Bool)
      (x : Tensor) : Tensor
  | depthwiseConv2d (kernel_size strides : List ℤ) (x : Tensor) : Tensor
  | batchNorm (x : Tensor) : Tensor
  | swish (x : Tensor) : Tensor
  | activation (name : String) (x : Tensor) : Tensor
  | lambdaMeanKeepdims (x : Tensor) : Tensor
  | multiply (a b : Tensor) : Tensor
  | dropConnect (rate : ℚ) (x : Tensor) : Tensor
  | add (a b : Tensor) : Tensor
  | globalAvgPool (x : Tensor) : Tensor
  | globalMaxPool (x : Tensor) : Tensor
  | dropout (rate : ℚ) (x : Tensor) : Tensor
  | dense (units : ℚ) (x : Tensor) : Tensor
deriving Repr, DecidableEq

/-- Translation of `SEBlock(input_filters, se_ratio, expand_ratio)`
(`efficientnet.py` lines 145-183) applied to an input tensor. -/
def SEBlock (input_filters se_ratio : ℚ) (expand_ratio : ℤ) (inputs : Tensor) :
    Tensor :=
  let num_reduced_filters : ℤ := max 1 (pyTrunc (input_filters * se_ratio))
  let filters := input_filters * (expand_ratio : ℚ)
  let x := Tensor.lambdaMeanKeepdims inputs
  let x := Tensor.conv2d (num_reduced_filters : ℚ) [1, 1] [1, 1] true x
  let x := Tensor.swish x
  let x := Tensor.conv2d filters [1, 1] [1, 1] true x
  let x := Tensor.activation "sigmoid" x
  Tensor.multiply x inputs

/-- The transformed path of `MBConvBlock` (`efficientnet.py` lines 208-254):
expansion, depthwise convolution, optional squeeze-excitation and the output
projection, i.e. the value of `x` just before the skip-connection check. -/
def MBConvPath (input_filters output_filters : ℚ) (kernel_size : ℤ)
    (strides : List ℤ) (expand_ratio : ℤ) (se_ratio : Option ℚ)
    (inputs : Tensor) : Tensor :=
  let has_se : Bool :=
    match se_ratio with
    | none => false
    | some r => decide (0 < r ∧ r ≤ 1)
  let filters := input_filters * (expand_ratio : ℚ)
  let x :=
    if expand_ratio ≠ 1 then
      Tensor.swish (Tensor.batchNorm (Tensor.conv2d filters [1, 1] [1, 1] false inputs))
    else inputs
  let x := Tensor.swish (Tensor.batchNorm
    (Tensor.depthwiseConv2d [kernel_size, kernel_size] strides x))
  let x := if has_se then SEBlock input_filters (se_ratio.getD 0) expand_ratio x else x
  Tensor.batchNorm (Tensor.conv2d output_filters [1, 1] [1, 1] false x)

/-- Translation of `MBConvBlock(...)` (`efficientnet.py` lines 187-268) applied
to an input tensor: the transformed path followed by the gated residual
addition, with drop-connect applied (Python truthiness: nonzero rate) before
the add. -/
def MBConvBlock (input_filters output_filters : ℚ) (kernel_size : ℤ)
    (strides : List ℤ) (expand_ratio : ℤ) (se_ratio : Option ℚ)
    (id_skip : Bool) (drop_connect_rate : ℚ) (inputs : Tensor) : Tensor :=
  let x := MBConvPath input_filters output_filters kernel_size strides
    expand_ratio se_ratio inputs
  if id_skip ∧ strides.all (fun s => s == 1) ∧ input_filters = output_filters then
    Tensor.add
      (if drop_connect_rate = 0 then x else Tensor.dropConnect drop_connect_rate x)
      inputs
  else x

/-- Configuration of one network stage, as read and written by
`EfficientNet`'s block loop.  The field set is determined by the attribute
accesses in `efficientnet.py` (`config.py` itself is not part of the sources). -/
structure BlockArgs where
  input_filters : ℚ
  output_filters : ℚ
  kernel_size : ℤ
  strides : List ℤ
  num_repeat : ℤ
  se_ratio : Option ℚ
  expand_ratio : ℤ
  identity_skip : Bool
deriving Repr, DecidableEq

/-- The argument tuple of one `MBConvBlock(...)` call emitted by the block
loop (`efficientnet.py` lines 351-355 and 362-366). -/
structure BlockCall where
  input_filters : ℚ
  output_filters : ℚ
  kernel_size : ℤ
  strides : List ℤ
  expand_ratio : ℤ
  se_ratio : Option ℚ
  identity_skip : Bool
deriving Repr, DecidableEq

/-- Application of one recorded `MBConvBlock` call to the running tensor. -/
def applyCall (drop_connect_rate : ℚ) (c : BlockCall) (x : Tensor) : Tensor :=
  MBConvBlock c.input_filters c.output_filters c.kernel_size c.strides
    c.expand_ratio c.se_ratio c.identity_skip drop_connect_rate x

/-- One iteration of the block loop (`efficientnet.py` lines 342-366), minus
the leading assert: rescale the stage's filters and repeats (mutating the
`BlockArgs`), emit the first block with the stage stride, then overwrite
`input_filters` and `strides` when the stage repeats, and emit the remaining
`num_repeat - 1` identical calls.  Returns the mutated `BlockArgs` (as left in
the caller's list) and the emitted call sequence. -/
def stageCalls (width_coefficient depth_divisor : ℚ) (min_depth : Option ℚ)
    (depth_coefficient : ℚ) (ba : BlockArgs) : BlockArgs × List BlockCall :=
  let ba1 : BlockArgs :=
    { ba with
      input_filters := round_filters ba.input_filters width_coefficient depth_divisor min_depth
      output_filters := round_filters ba.output_filters width_coefficient depth_divisor min_depth
      num_repeat := round_repeats ba.num_repeat depth_coefficient }
  let first : BlockCall :=
    ⟨ba1.input_filters, ba1.output_filters, ba1.kernel_size, ba1.strides,
      ba1.expand_ratio, ba1.se_ratio, ba1.identity_skip⟩
  let ba2 : BlockArgs :=
    if 1 < ba1.num_repeat then
      { ba1 with input_filters := ba1.output_filters, strides := [1, 1] }
    else ba1
  let rest : List BlockCall :=
    List.replicate (ba1.num_repeat - 1).toNat
      ⟨ba2.input_filters, ba2.output_filters, ba2.kernel_size, ba2.strides,
        ba2.expand_ratio, ba2.se_ratio, ba2.identity_skip⟩
  (ba2, first :: rest)

/-- The block loop over the whole `block_args_list` (`efficientnet.py` lines
342-366).  `assert block_args.num_repeat > 0` at the top of each iteration is
modelled as an error that stops the loop, leaving the already processed
prefix mutated and the rest of the list untouched. -/
def blocksLoop (width_coefficient depth_divisor : ℚ) (min_depth : Option ℚ)
    (depth_coefficient drop_connect_rate : ℚ) :
    List BlockArgs → Tensor → List BlockArgs × Tensor × Option String
  | [], x => ([], x, none)
  | ba :: rest, x =>
    if ba.num_repeat ≤ 0 then (ba :: rest, x, some "AssertionError")
    else
      let sc := stageCalls width_coefficient depth_divisor min_depth depth_coefficient ba
      let x1 := sc.2.foldl (fun acc c => applyCall drop_connect_rate c acc) x
      let r := blocksLoop width_coefficient depth_divisor min_depth depth_coefficient
        drop_connect_rate rest x1
      (sc.1 :: r.1, r.2.1, r.2.2)

/-- Modelled from the spec: `_obtain_input_shape` comes from the external
`keras_applications` package and is not under the repository sources; the spec
describes it as input-shape validation that "rejects any input smaller than
`2^(1+stride_count)` along the constrained dimension" and derives a default
shape when none is given.  Shapes are `(height, width, channels)`. -/
def obtain_input_shape (input_shape : Option (ℤ × ℤ × ℤ))
    (default_size min_size : ℤ) (_require_flatten : Bool)
    (_weights : Option String) : Except String (ℤ × ℤ × ℤ) :=
  match input_shape with
  | some (h, w, c) =>
    if h < min_size ∨ w < min_size then
      .error "Input size must be at least min_size"
    else .ok (h, w, c)
  | none => .ok (default_size, default_size, 3)

/-- The stride count loop (`efficientnet.py` lines 302-305): starts at `1` and
adds one per stage whose first stride component exceeds 1. -/
def strideCount (l : List BlockArgs) : ℕ :=
  l.foldl (fun acc ba => if 1 < ba.strides.headD 1 then acc + 1 else acc) 1

/-- The minimum input size `int(2 ** stride_count)` (`efficientnet.py` line 307). -/
def minInputSize (l : List BlockArgs) : ℤ :=
  2 ^ strideCount l

/-- Number of layer nodes in a graph tree (everything except the input leaf).
Used to witness whether any layer was constructed before a failure. -/
def layerNodes : Tensor → ℕ
  | .input => 0
  | .conv2d _ _ _ _ x => layerNodes x + 1
  | .depthwiseConv2d _ _ x => layerNodes x + 1
  | .batchNorm x => layerNodes x + 1
  | .swish x => layerNodes x + 1
  | .activation _ x => layerNodes x + 1
  | .lambdaMeanKeepdims x => layerNodes x + 1
  | .multiply a b => layerNodes a + layerNodes b + 1
  | .dropConnect _ x => layerNodes x + 1
  | .add a b => layerNodes a + layerNodes b + 1
  | .globalAvgPool x => layerNodes x + 1
  | .globalMaxPool x => layerNodes x + 1
  | .dropout _ x => layerNodes x + 1
  | .dense _ x => layerNodes x + 1

/-- Result of a successful `EfficientNet(...)` call: the caller's
`block_args_list` as left after the in-place mutation, and the model's output
tensor (its input is the `Tensor.input` leaf). -/
structure BuildResult where
  blockArgsAfter : List BlockArgs
  model : Tensor
deriving Repr, DecidableEq

/-- Translation of `EfficientNet(...)` (`efficientnet.py` lines 271-518).
The returned pair is (number of layer nodes constructed before returning or
failing, result).  Input-shape validation happens before any layer exists;
the ImageNet weights dispatch (lines 407-513) happens after the whole graph
is assembled, so its `ValueError` carries the full layer count.  Weight
files themselves are opaque downloads and add no graph structure. -/
def EfficientNet (input_shape : Option (ℤ × ℤ × ℤ))
    (block_args_list : List BlockArgs)
    (width_coefficient depth_coefficient : ℚ) (include_top : Bool)
    (weights : Option String) (pooling : Option String) (classes : ℚ)
    (dropout_rate drop_connect_rate : ℚ) (depth_divisor : ℚ)
    (min_depth : Option ℚ) (default_size : Option ℤ) :
    ℕ × Except String BuildResult :=
  let ds := default_size.getD 224
  match obtain_input_shape input_shape ds (minInputSize block_args_list)
      include_top weights with
  | .error e => (0, .error e)
  | .ok _ =>
    let x := Tensor.swish (Tensor.batchNorm (Tensor.conv2d
      (round_filters 32 width_coefficient depth_divisor min_depth)
      [3, 3] [2, 2] false Tensor.input))
    match blocksLoop width_coefficient depth_divisor min_depth depth_coefficient
        drop_connect_rate block_args_list x with
    | (_, xPartial, some e) => (layerNodes xPartial, .error e)
    | (mutated, xb, none) =>
      let xh := Tensor.swish (Tensor.batchNorm (Tensor.conv2d
        (round_filters 1280 width_coefficient depth_coefficient min_depth)
        [1, 1] [1, 1] false xb))
      let xo :=
        if include_top then
          let xp := Tensor.globalAvgPool xh
          let xp := if 0 < dropout_rate then Tensor.dropout dropout_rate xp else xp
          Tensor.activation "softmax" (Tensor.dense classes xp)
        else
          match pooling with
          | some "avg" => Tensor.globalAvgPool xh
          | some "max" => Tensor.globalMaxPool xh
          | _ => xh
      match weights with
      | some "imagenet" =>
        if ds = 224 ∨ ds = 240 ∨ ds = 260 ∨ ds = 300 then
          (layerNodes xo, .ok ⟨mutated, xo⟩)
        else
          (layerNodes xo, .error "ImageNet weights can only be loaded with EfficientNetB0-7")
      | _ => (layerNodes xo, .ok ⟨mutated, xo⟩)

/-- Channel count of a node's output, given the channel count of the graph
input, following Keras shape semantics: convolutions and dense layers set the
channel (last-axis) count, everything else preserves the channel count of its
(first) argument; the elementwise `multiply` and `add` take broadcast-equal
operands in this graph. -/
def outputChannels : Tensor → ℚ → ℚ
  | .input, c => c
  | .conv2d f _ _ _ _, _ => f
  | .depthwiseConv2d _ _ x, c => outputChannels x c
  | .batchNorm x, c => outputChannels x c
  | .swish x, c => outputChannels x c
  | .activation _ x, c => outputChannels x c
  | .lambdaMeanKeepdims x, c => outputChannels x c
  | .multiply a _, c => outputChannels a c
  | .dropConnect _ x, c => outputChannels x c
  | .add a _, c => outputChannels a c
  | .globalAvgPool x, c => outputChannels x c
  | .globalMaxPool x, c => outputChannels x c
  | .dropout _ x, c => outputChannels x c
  | .dense u _, _ => u

/-- Tensor rank of a node's output under Keras shape semantics: the graph
input is a rank-4 batch of images, global pooling flattens to rank 2
`(batch, channels)`, and every other layer preserves its argument's rank. -/
def outputRank : Tensor → ℕ
  | .input => 4
  | .conv2d _ _ _ _ x => outputRank x
  | .depthwiseConv2d _ _ x => outputRank x
  | .batchNorm x => outputRank x
  | .swish x => outputRank x
  | .activation _ x => outputRank x
  | .lambdaMeanKeepdims x => outputRank x
  | .multiply a _ => outputRank a
  | .dropConnect _ x => outputRank x
  | .add a _ => outputRank a
  | .globalAvgPool _ => 2
  | .globalMaxPool _ => 2
  | .dropout _ x => outputRank x
  | .dense _ x => outputRank x

/-- A numpy array: a shape and row-major flat data. -/
structure NpArray where
  shape : List ℕ
  data : List ℚ
deriving Repr, DecidableEq

/-- The constant `_IMAGENET_MEAN = [0.485*255, 0.456*255, 0.406*255]`
(`efficientnet.py` line 47), as exact rationals. -/
def IMAGENET_MEAN : List ℚ := [123675 / 1000, 11628 / 100, 10353 / 100]

/-- The constant `_IMAGENET_STDDEV = [0.229*255, 0.224*255, 0.225*255]`
(`efficientnet.py` line 48), as exact rationals. -/
def IMAGENET_STDDEV : List ℚ := [58395 / 1000, 5712 / 100, 57375 / 1000]

/-- Index into a broadcast source axis: an axis of extent 1 is read at 0. -/
def bIdx (d i : ℕ) : ℕ :=
  if d = 1 then 0 else i

/-- Row-major element lookup in a rank-3 array with trailing extents
`s1, s2` (missing entries read as 0, never reached on well-formed data). -/
def get3 (x : NpArray) (s1 s2 i j k : ℕ) : ℚ :=
  x.data.getD ((i * s1 + j) * s2 + k) 0

/-- Numpy broadcast of a single axis: equal extents, or either extent is 1. -/
def broadcastDim (a b : ℕ) : Option ℕ :=
  if a = b then some a
  else if a = 1 then some b
  else if b = 1 then some a
  else none

/-- Numpy elementwise binary operation with broadcasting on rank-3 arrays,
producing the row-major result; incompatible extents raise `ValueError`. -/
def broadcastOp (op : ℚ → ℚ → ℚ) (x y : NpArray) : Except String NpArray :=
  match x.shape, y.shape with
  | [a0, a1, a2], [b0, b1, b2] =>
    match broadcastDim a0 b0, broadcastDim a1 b1, broadcastDim a2 b2 with
    | some d0, some d1, some d2 =>
      .ok ⟨[d0, d1, d2], (List.range (d0 * (d1 * d2))).map (fun n =>
        op (get3 x a1 a2 (bIdx a0 (n / (d1 * d2))) (bIdx a1 (n / d2 % d1)) (bIdx a2 (n % d2)))
           (get3 y b1 b2 (bIdx b0 (n / (d1 * d2))) (bIdx b1 (n / d2 % d1)) (bIdx b2 (n % d2))))⟩
    | _, _, _ => .error "ValueError: operands could not be broadcast together"
  | _, _ => .error "ValueError: operands could not be broadcast together"

/-- Translation of `preprocess_input(x, data_format)` (`efficientnet.py`
lines 51-68).  The two bare `assert` statements raise `AssertionError`; then
the mean and standard deviation vectors are reshaped to `(3,1,1)` for
`channels_first` and `(1,1,3)` otherwise, and subtracted/divided with numpy
broadcasting.  `data_format` arrives resolved (`None` is replaced by the
Keras global image-data-format before these branches are taken). -/
def preprocess_input (x : NpArray) (data_format : String) :
    Except String NpArray :=
  if x.shape.length ≠ 3 then .error "AssertionError"
  else if x.shape.getLastD 0 ≠ 3 then .error "AssertionError"
  else
    let meanShape : List ℕ := if data_format = "channels_first" then [3, 1, 1] else [1, 1, 3]
    let mean : NpArray := ⟨meanShape, IMAGENET_MEAN⟩
    let std : NpArray := ⟨meanShape, IMAGENET_STDDEV⟩
    match broadcastOp (fun a b => a - b) x mean with
    | .error e => .error e
    | .ok x1 =>
      match broadcastOp (fun a b => a / b) x1 std with
      | .error e => .error e
      | .ok x2 => .ok x2

instance {ε α : Type} [DecidableEq ε] [DecidableEq α] : DecidableEq (Except ε α) := fun x y =>
  match x, y with
  | .ok a, .ok b => if h : a = b then .isTrue (by rw [h]) else .isFalse (by simp [h])
  | .error a, .error b => if h : a = b then .isTrue (by rw [h]) else .isFalse (by simp [h])
  | .ok _, .error _ => .isFalse (by simp)
  | .error _, .ok _ => .isFalse (by simp)

theorem pyTrunc_intCast (n : ℤ) : pyTrunc (n : ℚ) = n := by
  unfold pyTrunc
  split <;> simp

theorem pyTrunc_of_nonneg (q : ℚ) (h : 0 ≤ q) : pyTrunc q = ⌊q⌋ := by
  unfold pyTrunc
  rw [if_neg (not_lt.mpr h)]

unseal Rat.mul Rat.inv Rat.add Rat.sub Rat.ofScientific in
example : round_filters 32 1 8 none = 32 := by decide

unseal Rat.mul Rat.inv Rat.add Rat.sub Rat.ofScientific in
example : round_filters 1280 1 1 none = 1280 := by decide

unseal Rat.mul Rat.inv Rat.add Rat.sub Rat.ofScientific in
example : round_filters 100 (1 / 100) 8 none = 8 := by decide

unseal Rat.mul Rat.inv Rat.add Rat.sub Rat.ofScientific in
example : round_filters 2009 (-1 / 2) 8 (some (-2000)) = -992 := by decide

unseal Rat.mul Rat.inv Rat.add Rat.sub Rat.ofScientific in
example : round_filters_claim 2009 (-1 / 2) 8 (some (-2000)) = -1000 := by decide

unseal Rat.mul Rat.inv Rat.add Rat.sub Rat.ofScientific in
example : round_filters 1 11 8 (some 9) = 17 := by decide

unseal Rat.mul Rat.inv Rat.add Rat.sub Rat.ofScientific in
example : round_filters 1 12 8 (some 9) = 16 := by decide

unseal Rat.mul Rat.inv Rat.add Rat.sub Rat.ofScientific in
example : round_repeats 3 (3 / 2) = 5 := by decide

unseal Rat.mul Rat.inv Rat.add Rat.sub Rat.ofScientific in
example : round_repeats 3 0 = 3 := by decide

theorem floor_div_floor (x : ℚ) (d : ℤ) (hd : 0 < d) :
    ⌊((⌊x⌋ : ℚ)) / (d : ℚ)⌋ = ⌊x / (d : ℚ)⌋ := by
  have hdQ : (0 : ℚ) < (d : ℚ) := by exact_mod_cast hd
  have key : ∀ z : ℤ, z ≤ ⌊((⌊x⌋ : ℚ)) / (d : ℚ)⌋ ↔ z ≤ ⌊x / (d : ℚ)⌋ := by
    intro z
    rw [Int.le_floor, Int.le_floor, le_div_iff₀ hdQ, le_div_iff₀ hdQ]
    constructor
    · intro h
      calc ((z : ℚ) * d) = (((z * d : ℤ) : ℚ)) := by push_cast; ring
        _ ≤ ((⌊x⌋ : ℚ)) := by exact_mod_cast h
        _ ≤ x := Int.floor_le x
    · intro h
      have hz : ((z * d : ℤ) : ℚ) ≤ x := by push_cast; linarith
      have := Int.le_floor.mpr hz
      calc ((z : ℚ) * d) = (((z * d : ℤ) : ℚ)) := by push_cast; ring
        _ ≤ ((⌊x⌋ : ℚ)) := by exact_mod_cast this
  exact le_antisymm ((key _).mp le_rfl) ((key _).mpr le_rfl)

theorem inner_floor_lb (s : ℚ) (d : ℤ) (hd : 0 < d) :
    s - (d : ℚ) / 2 < ((⌊(s + (d : ℚ) / 2) / (d : ℚ)⌋ : ℤ) : ℚ) * d := by
  have hdQ : (0 : ℚ) < (d : ℚ) := by exact_mod_cast hd
  have h1 : (s + (d : ℚ) / 2) / (d : ℚ) - 1 < ((⌊(s + (d : ℚ) / 2) / (d : ℚ)⌋ : ℤ) : ℚ) :=
    Int.sub_one_lt_floor _
  have h2 := mul_lt_mul_of_pos_right h1 hdQ
  rw [sub_mul, div_mul_cancel₀ _ (ne_of_gt hdQ)] at h2
  linarith

theorem inner_floor_nonneg (s : ℚ) (d : ℤ) (hd : 0 < d) (hs : 0 ≤ s) :
    0 ≤ ⌊(s + (d : ℚ) / 2) / (d : ℚ)⌋ := by
  have hdQ : (0 : ℚ) < (d : ℚ) := by exact_mod_cast hd
  exact Int.floor_nonneg.mpr (div_nonneg (by linarith) (le_of_lt hdQ))

theorem inner_floor_mono (s t : ℚ) (d : ℤ) (hd : 0 < d) (h : s ≤ t) :
    ⌊(s + (d : ℚ) / 2) / (d : ℚ)⌋ ≤ ⌊(t + (d : ℚ) / 2) / (d : ℚ)⌋ := by
  have hdQ : (0 : ℚ) < (d : ℚ) := by exact_mod_cast hd
  exact Int.floor_le_floor ((div_le_div_iff_of_pos_right hdQ).mpr (by linarith))

/-- Staged description of `round_filters` for a nonzero coefficient with
nonnegative scaled filters, integer divisor and integer-valued `min_depth`
written as `mdZ`: first the rounded value `max mdZ I * d` over the integers,
then the 10 percent correction, both cast back to `ℚ`. -/
theorem round_filters_staged (f w : ℚ) (hw : w ≠ 0) (hfw : 0 ≤ f * w)
    (d : ℤ) (hd : 0 < d) (m : Option ℚ) (mdZ : ℤ)
    (hmd : (match m with
      | none => (d : ℚ)
      | some v => if v = 0 then (d : ℚ) else v) = (mdZ : ℚ)) :
    round_filters f w d m =
      ((if ((max mdZ (⌊(f * w + (d : ℚ) / 2) / (d : ℚ)⌋ * d) : ℤ) : ℚ) < (9 / 10) * (f * w)
        then max mdZ (⌊(f * w + (d : ℚ) / 2) / (d : ℚ)⌋ * d) + d
        else max mdZ (⌊(f * w + (d : ℚ) / 2) / (d : ℚ)⌋ * d) : ℤ) : ℚ) := by
  have hdQ : (0 : ℚ) < (d : ℚ) := by exact_mod_cast hd
  have hsum : 0 ≤ f * w + (d : ℚ) / 2 := by linarith
  unfold round_filters
  rw [if_neg hw]
  simp only [hmd, pyTrunc_of_nonneg _ hsum, floor_div_floor _ _ hd]
  have hmax : max ((mdZ : ℤ) : ℚ) (((⌊(f * w + (d : ℚ) / 2) / (d : ℚ)⌋ : ℤ) : ℚ) * (d : ℚ))
      = ((max mdZ (⌊(f * w + (d : ℚ) / 2) / (d : ℚ)⌋ * d) : ℤ) : ℚ) := by
    push_cast
    rfl
  rw [hmax]
  split_ifs with h
  · rw [show ((max mdZ (⌊(f * w + (d : ℚ) / 2) / (d : ℚ)⌋ * d) : ℤ) : ℚ) + (d : ℚ)
        = ((max mdZ (⌊(f * w + (d : ℚ) / 2) / (d : ℚ)⌋ * d) + d : ℤ) : ℚ) by push_cast; ring]
    rw [pyTrunc_intCast]
  · rw [pyTrunc_intCast]

/-- Staged description of `round_filters_claim` under the same hypotheses,
with `min_depth` written as the integer `mdZ` (`getD d` semantics). -/
theorem round_filters_claim_staged (f w : ℚ) (hw : w ≠ 0)
    (d : ℤ) (hd : 0 < d) (m : Option ℚ) (mdZ : ℤ)
    (hmd : m.getD (d : ℚ) = (mdZ : ℚ)) :
    round_filters_claim f w d m =
      ((if ((max mdZ (⌊(f * w + (d : ℚ) / 2) / (d : ℚ)⌋ * d) : ℤ) : ℚ) < (9 / 10) * (f * w)
        then max mdZ (⌊(f * w + (d : ℚ) / 2) / (d : ℚ)⌋ * d) + d
        else max mdZ (⌊(f * w + (d : ℚ) / 2) / (d : ℚ)⌋ * d) : ℤ) : ℚ) := by
  unfold round_filters_claim
  rw [if_neg hw]
  simp only [hmd]
  have hmax : max ((mdZ : ℤ) : ℚ) (((⌊(f * w + (d : ℚ) / 2) / (d : ℚ)⌋ : ℤ) : ℚ) * (d : ℚ))
      = ((max mdZ (⌊(f * w + (d : ℚ) / 2) / (d : ℚ)⌋ * d) : ℤ) : ℚ) := by
    push_cast
    rfl
  rw [hmax]
  split_ifs with h
  · rw [show ((max mdZ (⌊(f * w + (d : ℚ) / 2) / (d : ℚ)⌋ * d) : ℤ) : ℚ) + (d : ℚ)
        = ((max mdZ (⌊(f * w + (d : ℚ) / 2) / (d : ℚ)⌋ * d) + d : ℤ) : ℚ) by push_cast; ring]
    rw [pyTrunc_intCast]
  · rw [pyTrunc_intCast]

unseal Rat.mul Rat.inv Rat.add Rat.sub Rat.ofScientific in
/-- Claim C2 as stated is false on the code: `int()` truncates toward zero
while the claim's formula floors, and for the nonzero (negative) width
coefficient −1/2 at filters 2009, divisor 8, min_depth −2000 the code
returns −992 while the claim's `max/floor/correction` formula yields −1000. -/
theorem c2_round_filters_formula_counterexample :
    round_filters 2009 (-1 / 2) 8 (some (-2000)) = -992 ∧
    round_filters_claim 2009 (-1 / 2) 8 (some (-2000)) = -1000 ∧
    ¬ round_filters 2009 (-1 / 2) 8 (some (-2000)) =
      round_filters_claim 2009 (-1 / 2) 8 (some (-2000)) := by
  refine ⟨by decide, by decide, by decide⟩

/-- Claim C2, amended: for positive integer filters `f`, positive (rather
than merely nonzero) width coefficient `w`, positive integer divisor `d` and
any integer `min_depth` `m` (defaulting to `d` when absent),
`round_filters` returns `max(m, floor((f*w + d/2) / d) * d)`, plus one
additional `d` when that value is below `0.9 * f * w`, truncated to an
integer; and when `w` is zero it returns `f` unchanged. -/
theorem c2_round_filters_formula_amended (f : ℤ) (hf : 0 < f) (w : ℚ)
    (hw : 0 < w) (d : ℤ) (hd : 0 < d) (m : Option ℤ) :
    round_filters (f : ℚ) w d (m.map fun v => (v : ℚ)) =
      round_filters_claim (f : ℚ) w d (m.map fun v => (v : ℚ)) ∧
    round_filters (f : ℚ) 0 d (m.map fun v => (v : ℚ)) = (f : ℚ) := by
  constructor
  · have hwne : w ≠ 0 := ne_of_gt hw
    have hdQ : (0 : ℚ) < (d : ℚ) := by exact_mod_cast hd
    have hfQ : (0 : ℚ) < (f : ℚ) := by exact_mod_cast hf
    have hfw : 0 < (f : ℚ) * w := mul_pos hfQ hw
    match m with
    | none =>
      rw [round_filters_staged (f : ℚ) w hwne (le_of_lt hfw) d hd _ d (by simp),
        round_filters_claim_staged (f : ℚ) w hwne d hd _ d (by simp)]
    | some v =>
      by_cases hv : v = 0
      · subst hv
        rw [round_filters_staged (f : ℚ) w hwne (le_of_lt hfw) d hd _ d (by simp),
          round_filters_claim_staged (f : ℚ) w hwne d hd _ 0 (by simp)]
        set I : ℤ := ⌊((f : ℚ) * w + (d : ℚ) / 2) / (d : ℚ)⌋ with hI
        have hI0 : 0 ≤ I := inner_floor_nonneg _ _ hd (le_of_lt hfw)
        rcases eq_or_lt_of_le hI0 with h0 | h1
        · have hImul : I * d = 0 := by rw [← h0]; ring
          have hsmall : (f : ℚ) * w < (d : ℚ) / 2 := by
            have := Int.floor_le (((f : ℚ) * w + (d : ℚ) / 2) / (d : ℚ))
            rw [← hI, ← h0] at this
            have h2 : ((f : ℚ) * w + (d : ℚ) / 2) / (d : ℚ) < 1 := by
              have := Int.lt_floor_add_one (((f : ℚ) * w + (d : ℚ) / 2) / (d : ℚ))
              rw [← hI, ← h0] at this
              simpa using this
            have h3 := (div_lt_one hdQ).mp h2
            linarith
          have hmaxd : max (0 : ℤ) (I * d) = 0 := by
            rw [hImul]
            simp
          have hmaxc : max d (I * d) = d := by
            rw [hImul]
            simp [le_of_lt hd]
          rw [hmaxd, hmaxc]
          have hnotc : ¬ ((d : ℤ) : ℚ) < (9 / 10) * ((f : ℚ) * w) := by
            push_neg
            calc (9 / 10) * ((f : ℚ) * w) ≤ (f : ℚ) * w := by nlinarith
              _ ≤ (d : ℚ) := by linarith
          have hc0 : ((0 : ℤ) : ℚ) < (9 / 10) * ((f : ℚ) * w) := by
            push_cast
            nlinarith
          rw [if_neg hnotc, if_pos hc0]
          norm_num
        · have hIle : d ≤ I * d := le_mul_of_one_le_left (le_of_lt hd) h1
          rw [max_eq_right hIle, max_eq_right (le_trans (le_of_lt hd) hIle)]
      · rw [round_filters_staged (f : ℚ) w hwne (le_of_lt hfw) d hd _ v
            (by simp [hv, Rat.intCast_eq_zero]),
          round_filters_claim_staged (f : ℚ) w hwne d hd _ v (by simp)]
  · unfold round_filters
    rw [if_pos rfl]

unseal Rat.mul Rat.inv Rat.add Rat.sub Rat.ofScientific in
/-- Witness for the amended claim C2 at filters 16, width 1, divisor 8,
min_depth absent. -/
theorem c2_round_filters_formula_amended_witness :
    round_filters ((16 : ℤ) : ℚ) 1 ((8 : ℤ) : ℚ) (Option.none.map fun v : ℤ => (v : ℚ)) =
      round_filters_claim ((16 : ℤ) : ℚ) 1 ((8 : ℤ) : ℚ) (Option.none.map fun v : ℤ => (v : ℚ)) ∧
    round_filters ((16 : ℤ) : ℚ) 0 ((8 : ℤ) : ℚ) (Option.none.map fun v : ℤ => (v : ℚ)) =
      ((16 : ℤ) : ℚ) :=
  c2_round_filters_formula_amended 16 (by decide) 1 (by decide) 8 (by decide) none

/-- Claim C7: for positive filters, width coefficient, divisor and min_depth,
the result of `round_filters` is never less than 90 percent of the scaled
pre-rounding value `f * w`: the `+divisor` correction step prevents rounding
down by more than 10 percent. -/
theorem c7_round_filters_ninety_percent (f : ℤ) (hf : 0 < f) (w : ℚ)
    (hw : 0 < w) (d : ℤ) (hd : 0 < d) (m : ℤ) (hm : 0 < m) :
    (9 / 10) * ((f : ℚ) * w) ≤ round_filters (f : ℚ) w d (some (m : ℚ)) := by
  have hdQ : (0 : ℚ) < (d : ℚ) := by exact_mod_cast hd
  have hfQ : (0 : ℚ) < (f : ℚ) := by exact_mod_cast hf
  have hfw : 0 < (f : ℚ) * w := mul_pos hfQ hw
  have hmne : ((m : ℤ) : ℚ) ≠ 0 := by
    exact_mod_cast ne_of_gt hm
  rw [round_filters_staged (f : ℚ) w (ne_of_gt hw) (le_of_lt hfw) d hd _ m
    (by simp [hmne])]
  set I : ℤ := ⌊((f : ℚ) * w + (d : ℚ) / 2) / (d : ℚ)⌋ with hI
  by_cases hc : ((max m (I * d) : ℤ) : ℚ) < (9 / 10) * ((f : ℚ) * w)
  · rw [if_pos hc]
    have hlb : (f : ℚ) * w - (d : ℚ) / 2 < ((I : ℤ) : ℚ) * d := inner_floor_lb _ _ hd
    have hmax : ((I : ℤ) : ℚ) * d ≤ ((max m (I * d) : ℤ) : ℚ) := by
      push_cast
      exact le_max_right _ _
    have : (f : ℚ) * w + (d : ℚ) / 2 < ((max m (I * d) + d : ℤ) : ℚ) := by
      push_cast at hmax ⊢
      linarith
    nlinarith
  · rw [if_neg hc]
    linarith [not_lt.mp hc]

unseal Rat.mul Rat.inv Rat.add Rat.sub Rat.ofScientific in
/-- Witness for claim C7 at filters 1, width 1, divisor 8, min_depth 1
(the correction branch fires: the result is 9 ≥ 0.9). -/
theorem c7_round_filters_ninety_percent_witness :
    (9 / 10) * (((1 : ℤ) : ℚ) * 1) ≤ round_filters ((1 : ℤ) : ℚ) 1 ((8 : ℤ) : ℚ) (some ((1 : ℤ) : ℚ)) :=
  c7_round_filters_ninety_percent 1 (by decide) 1 (by decide) 8 (by decide) 1 (by decide)

unseal Rat.mul Rat.inv Rat.add Rat.sub Rat.ofScientific in
/-- Claim C8: for positive repeats `r`, `round_repeats` returns
`ceil(c * r)` when the depth coefficient `c` is nonzero and `r` unchanged
when it is zero; in particular it is the identity at coefficient 1 and 0,
and `round_repeats 3 1.5 = 5`. -/
theorem c8_round_repeats_spec (r : ℤ) (hr : 0 < r) :
    (∀ c : ℚ, c ≠ 0 → round_repeats r c = ⌈c * (r : ℚ)⌉) ∧
    round_repeats r 0 = r ∧
    round_repeats r 1 = r ∧
    round_repeats 3 (3 / 2) = 5 := by
  refine ⟨?_, ?_, ?_, by decide⟩
  · intro c hc
    unfold round_repeats
    rw [if_neg hc]
  · unfold round_repeats
    rw [if_pos rfl]
  · unfold round_repeats
    rw [if_neg one_ne_zero, one_mul, Int.ceil_intCast]

unseal Rat.mul Rat.inv Rat.add Rat.sub Rat.ofScientific in
/-- Witness for claim C8 at repeats 2, coefficient 3/2. -/
theorem c8_round_repeats_spec_witness :
    round_repeats 2 (3 / 2) = ⌈(3 / 2 : ℚ) * ((2 : ℤ) : ℚ)⌉ :=
  (c8_round_repeats_spec 2 (by decide)).1 (3 / 2) (by decide)

unseal Rat.mul Rat.inv Rat.add Rat.sub Rat.ofScientific in
/-- Claim C6 as stated is false on the code: with filters 1, divisor 8 and
min_depth 9 (not a multiple of the divisor), the width coefficients 11 ≤ 12
give `round_filters` values 17 > 16, so the function is not monotonically
non-decreasing in the width coefficient. -/
theorem c6_round_filters_monotone_counterexample :
    round_filters 1 11 8 (some 9) = 17 ∧
    round_filters 1 12 8 (some 9) = 16 ∧
    (11 : ℚ) ≤ 12 ∧
    ¬ round_filters 1 11 8 (some 9) ≤ round_filters 1 12 8 (some 9) := by
  refine ⟨by decide, by decide, by decide, by decide⟩

/-- Core monotonicity of `round_filters` in the width coefficient, given
that the effective `min_depth` value is the integer multiple `d * k0` of the
divisor. -/
theorem round_filters_mono_core (f : ℤ) (hf : 0 < f) (d : ℤ) (hd : 0 < d)
    (m : Option ℚ) (k0 : ℤ)
    (hmd : (match m with
      | none => (d : ℚ)
      | some v => if v = 0 then (d : ℚ) else v) = ((d * k0 : ℤ) : ℚ))
    (w w' : ℚ) (hw : 0 < w) (hww : w ≤ w') :
    round_filters (f : ℚ) w d m ≤ round_filters (f : ℚ) w' d m := by
  have hdQ : (0 : ℚ) < (d : ℚ) := by exact_mod_cast hd
  have hfQ : (0 : ℚ) < (f : ℚ) := by exact_mod_cast hf
  have hw' : 0 < w' := lt_of_lt_of_le hw hww
  have hfw : 0 < (f : ℚ) * w := mul_pos hfQ hw
  have hfw' : 0 < (f : ℚ) * w' := mul_pos hfQ hw'
  have hss : (f : ℚ) * w ≤ (f : ℚ) * w' :=
    mul_le_mul_of_nonneg_left hww (le_of_lt hfQ)
  rw [round_filters_staged (f : ℚ) w (ne_of_gt hw) (le_of_lt hfw) d hd m (d * k0) hmd,
    round_filters_staged (f : ℚ) w' (ne_of_gt hw') (le_of_lt hfw') d hd m (d * k0) hmd]
  set I : ℤ := ⌊((f : ℚ) * w + (d : ℚ) / 2) / (d : ℚ)⌋ with hI
  set I' : ℤ := ⌊((f : ℚ) * w' + (d : ℚ) / 2) / (d : ℚ)⌋ with hI'
  have hII : I ≤ I' := inner_floor_mono _ _ _ hd hss
  have hBfac : max (d * k0) (I * d) = d * max k0 I := by
    rw [mul_comm I d, mul_max_of_nonneg _ _ (le_of_lt hd)]
  have hBfac' : max (d * k0) (I' * d) = d * max k0 I' := by
    rw [mul_comm I' d, mul_max_of_nonneg _ _ (le_of_lt hd)]
  rw [hBfac, hBfac']
  set B : ℤ := max k0 I with hB
  set B' : ℤ := max k0 I' with hB'
  have hBB : B ≤ B' := max_le_max le_rfl hII
  by_cases hc : ((d * B : ℤ) : ℚ) < (9 / 10) * ((f : ℚ) * w)
  · by_cases hc' : ((d * B' : ℤ) : ℚ) < (9 / 10) * ((f : ℚ) * w')
    · rw [if_pos hc, if_pos hc']
      have : d * B + d ≤ d * B' + d := by
        have := mul_le_mul_of_nonneg_left hBB (le_of_lt hd)
        omega
      exact_mod_cast this
    · rw [if_pos hc, if_neg hc']
      have hlt : ((d * B : ℤ) : ℚ) < ((d * B' : ℤ) : ℚ) := by
        have h1 : (9 / 10) * ((f : ℚ) * w) ≤ (9 / 10) * ((f : ℚ) * w') := by linarith
        have h2 := not_lt.mp hc'
        linarith
      have hltZ : d * B < d * B' := by exact_mod_cast hlt
      have hBltB : B < B' := lt_of_mul_lt_mul_left hltZ (le_of_lt hd)
      have : d * B + d ≤ d * B' := by
        have h3 : B + 1 ≤ B' := hBltB
        calc d * B + d = d * (B + 1) := by ring
          _ ≤ d * B' := mul_le_mul_of_nonneg_left h3 (le_of_lt hd)
      exact_mod_cast this
  · rw [if_neg hc]
    have hle : d * B ≤ d * B' := mul_le_mul_of_nonneg_left hBB (le_of_lt hd)
    by_cases hc' : ((d * B' : ℤ) : ℚ) < (9 / 10) * ((f : ℚ) * w')
    · rw [if_pos hc']
      have : d * B ≤ d * B' + d := by omega
      exact_mod_cast this
    · rw [if_neg hc']
      exact_mod_cast hle

/-- Claim C6, amended: for fixed positive integer filters `f`, positive
integer divisor `d`, and `min_depth` that is absent or an integer multiple of
`d`, the function `w ↦ round_filters f w d m` is monotonically non-decreasing
over positive width coefficients `0 < w ≤ w'`.  (As stated the claim fails
both for `min_depth` not a multiple of the divisor and across the zero
special case.) -/
theorem c6_round_filters_monotone_amended (f : ℤ) (hf : 0 < f) (d : ℤ)
    (hd : 0 < d) (m : Option ℚ)
    (hm : m = none ∨ ∃ k : ℤ, m = some ((d : ℚ) * k))
    (w w' : ℚ) (hw : 0 < w) (hww : w ≤ w') :
    round_filters (f : ℚ) w d m ≤ round_filters (f : ℚ) w' d m := by
  have hdQ : (0 : ℚ) < (d : ℚ) := by exact_mod_cast hd
  rcases hm with h | ⟨k, h⟩
  · subst h
    exact round_filters_mono_core f hf d hd none 1 (by push_cast; ring) w w' hw hww
  · subst h
    by_cases hk : k = 0
    · subst hk
      refine round_filters_mono_core f hf d hd _ 1 ?_ w w' hw hww
      push_cast
      simp
    · refine round_filters_mono_core f hf d hd _ k ?_ w w' hw hww
      have hne : (d : ℚ) * (k : ℚ) ≠ 0 :=
        mul_ne_zero (ne_of_gt hdQ) (by exact_mod_cast hk)
      simp only [if_neg hne]
      push_cast
      ring

unseal Rat.mul Rat.inv Rat.add Rat.sub Rat.ofScientific in
/-- Witness for the amended claim C6 at filters 16, divisor 8, min_depth
absent, width coefficients 1 ≤ 2. -/
theorem c6_round_filters_monotone_amended_witness :
    round_filters ((16 : ℤ) : ℚ) 1 ((8 : ℤ) : ℚ) none ≤
      round_filters ((16 : ℤ) : ℚ) 2 ((8 : ℤ) : ℚ) none :=
  c6_round_filters_monotone_amended 16 (by decide) 8 (by decide) none
    (Or.inl rfl) 1 2 (by decide) (by decide)

theorem MBConvPath_ne_add (input_filters output_filters : ℚ) (kernel_size : ℤ)
    (strides : List ℤ) (expand_ratio : ℤ) (se_ratio : Option ℚ)
    (inputs y b : Tensor) :
    MBConvPath input_filters output_filters kernel_size strides expand_ratio
      se_ratio inputs ≠ Tensor.add y b := by
  intro h
  simp only [MBConvPath] at h
  cases h

/-- Claim C3: inside an `MBConvBlock` the residual addition of the original
block input happens exactly when `id_skip` is set, every stride component is
1 and the input and output filter counts agree; drop-connect wraps the
transformed path, before the addition, exactly when that skip condition holds
together with a nonzero `drop_connect_rate`; and in particular for strides
`[2, 2]` or differing filter counts the output is the transformed path alone
and no residual addition occurs. -/
theorem c3_mbconv_residual_gating (input_filters output_filters : ℚ)
    (kernel_size : ℤ) (strides : List ℤ) (expand_ratio : ℤ)
    (se_ratio : Option ℚ) (id_skip : Bool) (drop_connect_rate : ℚ)
    (inputs : Tensor) :
    ((∃ y, MBConvBlock input_filters output_filters kernel_size strides
        expand_ratio se_ratio id_skip drop_connect_rate inputs =
        Tensor.add y inputs) ↔
      (id_skip = true ∧ (∀ s ∈ strides, s = 1) ∧ input_filters = output_filters)) ∧
    ((id_skip = true ∧ (∀ s ∈ strides, s = 1) ∧ input_filters = output_filters) →
      MBConvBlock input_filters output_filters kernel_size strides expand_ratio
        se_ratio id_skip drop_connect_rate inputs =
      Tensor.add
        (if drop_connect_rate = 0 then
          MBConvPath input_filters output_filters kernel_size strides expand_ratio se_ratio inputs
        else
          Tensor.dropConnect drop_connect_rate
            (MBConvPath input_filters output_filters kernel_size strides expand_ratio se_ratio inputs))
        inputs) ∧
    (¬ (id_skip = true ∧ (∀ s ∈ strides, s = 1) ∧ input_filters = output_filters) →
      MBConvBlock input_filters output_filters kernel_size strides expand_ratio
        se_ratio id_skip drop_connect_rate inputs =
      MBConvPath input_filters output_filters kernel_size strides expand_ratio se_ratio inputs) ∧
    ((strides = [2, 2] ∨ input_filters ≠ output_filters) →
      MBConvBlock input_filters output_filters kernel_size strides expand_ratio
        se_ratio id_skip drop_connect_rate inputs =
      MBConvPath input_filters output_filters kernel_size strides expand_ratio se_ratio inputs ∧
      ∀ y, MBConvBlock input_filters output_filters kernel_size strides expand_ratio
        se_ratio id_skip drop_connect_rate inputs ≠ Tensor.add y inputs) := by
  have hiff : (id_skip = true ∧ strides.all (fun s => s == 1) = true ∧
      input_filters = output_filters) ↔
      (id_skip = true ∧ (∀ s ∈ strides, s = 1) ∧ input_filters = output_filters) := by
    simp [List.all_eq_true]
  by_cases hcond : id_skip = true ∧ strides.all (fun s => s == 1) = true ∧
      input_filters = output_filters
  · have heq : MBConvBlock input_filters output_filters kernel_size strides
        expand_ratio se_ratio id_skip drop_connect_rate inputs =
        Tensor.add
          (if drop_connect_rate = 0 then
            MBConvPath input_filters output_filters kernel_size strides expand_ratio se_ratio inputs
          else
            Tensor.dropConnect drop_connect_rate
              (MBConvPath input_filters output_filters kernel_size strides expand_ratio se_ratio inputs))
          inputs := by
      simp only [MBConvBlock, if_pos hcond]
    refine ⟨⟨fun _ => hiff.mp hcond, fun _ => ⟨_, heq⟩⟩, fun _ => heq, fun hn => absurd (hiff.mp hcond) hn, ?_⟩
    intro hbad
    exfalso
    rcases hiff.mp hcond with ⟨_, hstr, hio⟩
    rcases hbad with h2 | hne
    · subst h2
      exact absurd (hstr 2 (by simp)) (by norm_num)
    · exact hne hio
  · have heq : MBConvBlock input_filters output_filters kernel_size strides
        expand_ratio se_ratio id_skip drop_connect_rate inputs =
        MBConvPath input_filters output_filters kernel_size strides expand_ratio se_ratio inputs := by
      simp only [MBConvBlock, if_neg hcond]
    refine ⟨⟨?_, fun hc => absurd (hiff.mpr hc) hcond⟩, fun hc => absurd (hiff.mpr hc) hcond,
      fun _ => heq, fun _ => ⟨heq, fun y h => ?_⟩⟩
    · rintro ⟨y, hy⟩
      rw [heq] at hy
      exact absurd hy (MBConvPath_ne_add _ _ _ _ _ _ _ _ _)
    · rw [heq] at h
      exact absurd h (MBConvPath_ne_add _ _ _ _ _ _ _ _ _)

/-- Witness for claim C3: a skip-eligible block (equal filters, unit strides,
`id_skip` set, zero drop-connect) produces the residual addition around the
transformed path. -/
theorem c3_mbconv_residual_gating_witness :
    MBConvBlock 8 8 3 [1, 1] 1 none true 0 Tensor.input =
      Tensor.add
        (if (0 : ℚ) = 0 then MBConvPath 8 8 3 [1, 1] 1 none Tensor.input
         else Tensor.dropConnect 0 (MBConvPath 8 8 3 [1, 1] 1 none Tensor.input))
        Tensor.input :=
  (c3_mbconv_residual_gating 8 8 3 [1, 1] 1 none true 0 Tensor.input).2.1
    ⟨rfl, by decide, rfl⟩

theorem strideCount_foldl (l : List BlockArgs) (n : ℕ) :
    l.foldl (fun acc ba => if 1 < ba.strides.headD 1 then acc + 1 else acc) n =
      n + l.countP (fun ba => decide (1 < ba.strides.headD 1)) := by
  induction l generalizing n with
  | nil => simp
  | cons ba rest ih =>
    simp only [List.foldl_cons, List.countP_cons, ih]
    split <;> simp_all <;> omega

/-- Claim C4: the minimum admissible input size computed by the assembler is
`2^(1 + count of stages whose first stride component exceeds 1)`, and any
requested input shape smaller than it along either spatial dimension is
rejected with zero layers constructed.  The validation itself
(`_obtain_input_shape`) is external `keras_applications` code modelled from
the spec. -/
theorem c4_min_input_size (l : List BlockArgs) :
    minInputSize l =
      2 ^ (1 + l.countP (fun ba => decide (1 < ba.strides.headD 1))) ∧
    ∀ (h w c : ℤ) (width_coefficient depth_coefficient : ℚ)
      (include_top : Bool) (weights pooling : Option String)
      (classes dropout_rate drop_connect_rate depth_divisor : ℚ)
      (min_depth : Option ℚ) (default_size : Option ℤ),
      (h < minInputSize l ∨ w < minInputSize l) →
      EfficientNet (some (h, w, c)) l width_coefficient depth_coefficient
        include_top weights pooling classes dropout_rate drop_connect_rate
        depth_divisor min_depth default_size =
      (0, .error "Input size must be at least min_size") := by
  constructor
  · rw [minInputSize, strideCount, strideCount_foldl]
  · intro h w c wc dc it wt pl cls dr dcr dd md ds hlt
    simp only [EfficientNet, obtain_input_shape, if_pos hlt]

/-- Witness for claim C4: a single stage with stride 2 gives minimum size 4,
and the 2×2 input is rejected with no layers built. -/
theorem c4_min_input_size_witness :
    minInputSize [⟨16, 16, 3, [2, 2], 1, none, 1, true⟩] =
      2 ^ (1 + ([⟨16, 16, 3, [2, 2], 1, none, 1, true⟩] : List BlockArgs).countP
        (fun ba => decide (1 < ba.strides.headD 1))) ∧
    EfficientNet (some (2, 2, 3)) [⟨16, 16, 3, [2, 2], 1, none, 1, true⟩] 1 1
      false none none 1000 0 0 8 none none =
      (0, .error "Input size must be at least min_size") :=
  ⟨(c4_min_input_size _).1,
    (c4_min_input_size _).2 2 2 3 1 1 false none none 1000 0 0 8 none none
      (by decide)⟩

theorem blocksLoop_no_error (width_coefficient depth_divisor : ℚ)
    (min_depth : Option ℚ) (depth_coefficient drop_connect_rate : ℚ)
    (l : List BlockArgs) (x : Tensor) (hl : ∀ ba ∈ l, 0 < ba.num_repeat) :
    (blocksLoop width_coefficient depth_divisor min_depth depth_coefficient
      drop_connect_rate l x).2.2 = none := by
  induction l generalizing x with
  | nil => rfl
  | cons ba rest ih =>
    have hba : 0 < ba.num_repeat := hl ba (by simp)
    simp only [blocksLoop, if_neg (not_le.mpr hba)]
    exact ih _ fun b hb => hl b (by simp [hb])

unseal Rat.mul Rat.inv Rat.add Rat.sub Rat.ofScientific in
/-- Claim C9 as stated is false on the code: requesting ImageNet weights at
the unsupported resolution 380 does raise the "ImageNet weights can only be
loaded with EfficientNetB0-7" error, but only after the entire graph is
assembled — here six layers already exist when the error is raised, so the
configuration error is not raised before any layer is constructed. -/
theorem c9_weights_error_counterexample :
    (EfficientNet (some (380, 380, 3)) [] 1 1 false (some "imagenet") none
      1000 0 0 8 none (some 380)).2 =
      .error "ImageNet weights can only be loaded with EfficientNetB0-7" ∧
    (EfficientNet (some (380, 380, 3)) [] 1 1 false (some "imagenet") none
      1000 0 0 8 none (some 380)).1 = 6 ∧
    ¬ (EfficientNet (some (380, 380, 3)) [] 1 1 false (some "imagenet") none
      1000 0 0 8 none (some 380)).1 = 0 := by
  refine ⟨rfl, rfl, by decide⟩

/-- Claim C9, amended: requesting ImageNet weights for a `default_size` with
no published checkpoint (not 224, 240, 260 or 300) raises the fatal
"unsupported variant" `ValueError`, but the error is raised only after the
full graph has been assembled: at least one layer already exists when it is
raised, so a partial graph is produced. -/
theorem c9_weights_error_amended (l : List BlockArgs)
    (hl : ∀ ba ∈ l, 0 < ba.num_repeat) (ds : ℤ)
    (hds : ¬ (ds = 224 ∨ ds = 240 ∨ ds = 260 ∨ ds = 300))
    (width_coefficient depth_coefficient : ℚ) (include_top : Bool)
    (pooling : Option String) (classes dropout_rate drop_connect_rate depth_divisor : ℚ)
    (min_depth : Option ℚ) :
    (EfficientNet none l width_coefficient depth_coefficient include_top
      (some "imagenet") pooling classes dropout_rate drop_connect_rate
      depth_divisor min_depth (some ds)).2 =
      .error "ImageNet weights can only be loaded with EfficientNetB0-7" ∧
    0 < (EfficientNet none l width_coefficient depth_coefficient include_top
      (some "imagenet") pooling classes dropout_rate drop_connect_rate
      depth_divisor min_depth (some ds)).1 := by
  have hbl := blocksLoop_no_error width_coefficient depth_divisor min_depth
    depth_coefficient drop_connect_rate l
    (Tensor.swish (Tensor.batchNorm (Tensor.conv2d
      (round_filters 32 width_coefficient depth_divisor min_depth)
      [3, 3] [2, 2] false Tensor.input))) hl
  simp only [EfficientNet, obtain_input_shape, Option.getD_some]
  rcases hblv : blocksLoop width_coefficient depth_divisor min_depth
      depth_coefficient drop_connect_rate l
      (Tensor.swish (Tensor.batchNorm (Tensor.conv2d
        (round_filters 32 width_coefficient depth_divisor min_depth)
        [3, 3] [2, 2] false Tensor.input))) with ⟨l2, x2, e2⟩
  rw [hblv] at hbl
  simp only at hbl
  subst hbl
  simp only [if_neg hds]
  constructor
  · trivial
  · split
    · simp [layerNodes]
    · split <;> simp [layerNodes]

unseal Rat.mul Rat.inv Rat.add Rat.sub Rat.ofScientific in
/-- Witness for the amended claim C9 with an empty stage list at resolution
380. -/
theorem c9_weights_error_amended_witness :
    (EfficientNet none [] 1 1 false (some "imagenet") none 1000 0 0 8 none
      (some 380)).2 =
      .error "ImageNet weights can only be loaded with EfficientNetB0-7" ∧
    0 < (EfficientNet none [] 1 1 false (some "imagenet") none 1000 0 0 8 none
      (some 380)).1 :=
  c9_weights_error_amended [] (by simp) 380 (by decide) 1 1 false none 1000 0 0 8 none

unseal Rat.mul Rat.inv Rat.add Rat.sub Rat.ofScientific in
/-- Claim C1: the head 1×1 convolution's filter count is
`round_filters(1280, width_coefficient, depth_coefficient, min_depth)` — the
`depth_coefficient` argument sits in the `depth_divisor` position — and every
successful build with `include_top = False` and `pooling = 'avg'` outputs a
rank-2 `(batch, C)` tensor whose channel count `C` is exactly that head
filter count; for the B0 configuration (width 1.0, depth 1.0) this gives
`C = 1280`. -/
theorem c1_head_filters_no_top_avg (input_shape : Option (ℤ × ℤ × ℤ))
    (l : List BlockArgs) (width_coefficient depth_coefficient : ℚ)
    (weights : Option String) (classes dropout_rate drop_connect_rate depth_divisor : ℚ)
    (min_depth : Option ℚ) (default_size : Option ℤ) (n : ℕ) (r : BuildResult)
    (hok : EfficientNet input_shape l width_coefficient depth_coefficient false
      weights (some "avg") classes dropout_rate drop_connect_rate depth_divisor
      min_depth default_size = (n, .ok r)) :
    outputRank r.model = 2 ∧
    (∀ c : ℚ, outputChannels r.model c =
      round_filters 1280 width_coefficient depth_coefficient min_depth) ∧
    round_filters 1280 1 1 none = 1280 := by
  have hmodel : ∃ xb, r.model = Tensor.globalAvgPool (Tensor.swish (Tensor.batchNorm
      (Tensor.conv2d (round_filters 1280 width_coefficient depth_coefficient min_depth)
        [1, 1] [1, 1] false xb))) := by
    simp only [EfficientNet] at hok
    split at hok
    · simp at hok
    · rcases hblv : blocksLoop width_coefficient depth_divisor min_depth
          depth_coefficient drop_connect_rate l
          (Tensor.swish (Tensor.batchNorm (Tensor.conv2d
            (round_filters 32 width_coefficient depth_divisor min_depth)
            [3, 3] [2, 2] false Tensor.input))) with ⟨l2, x2, e2⟩
      rw [hblv] at hok
      cases e2 with
      | some e =>
        simp only [Prod.mk.injEq] at hok
        exact absurd hok.2 (by simp)
      | none =>
        simp only at hok
        refine ⟨x2, ?_⟩
        split at hok
        · split at hok
          · simp only [Prod.mk.injEq, Except.ok.injEq] at hok
            rw [← hok.2]
            simp
          · simp only [Prod.mk.injEq] at hok
            exact absurd hok.2 (by simp)
        · simp only [Prod.mk.injEq, Except.ok.injEq] at hok
          rw [← hok.2]
          simp
  obtain ⟨xb, hmodel⟩ := hmodel
  refine ⟨by rw [hmodel]; rfl, fun c => by rw [hmodel]; rfl, by decide⟩

unseal Rat.mul Rat.inv Rat.add Rat.sub Rat.ofScientific in
/-- Witness for claim C1: a concrete no-top average-pooled build (empty stage
list, B0 coefficients) whose output is rank 2 with the head channel count. -/
theorem c1_head_filters_no_top_avg_witness :
    outputRank (BuildResult.mk []
      (Tensor.globalAvgPool (Tensor.swish (Tensor.batchNorm
        (Tensor.conv2d (round_filters 1280 1 1 none) [1, 1] [1, 1] false
          (Tensor.swish (Tensor.batchNorm (Tensor.conv2d
            (round_filters 32 1 8 none) [3, 3] [2, 2] false
            Tensor.input)))))))).model = 2 ∧
    (∀ c : ℚ, outputChannels (BuildResult.mk []
      (Tensor.globalAvgPool (Tensor.swish (Tensor.batchNorm
        (Tensor.conv2d (round_filters 1280 1 1 none) [1, 1] [1, 1] false
          (Tensor.swish (Tensor.batchNorm (Tensor.conv2d
            (round_filters 32 1 8 none) [3, 3] [2, 2] false
            Tensor.input)))))))).model c = round_filters 1280 1 1 none) ∧
    round_filters 1280 1 1 none = 1280 :=
  c1_head_filters_no_top_avg (some (224, 224, 3)) [] 1 1 none 1000 0 0 8 none
    none 7 _ rfl

theorem blocksLoop_mutated (width_coefficient depth_divisor : ℚ)
    (min_depth : Option ℚ) (depth_coefficient drop_connect_rate : ℚ)
    (l : List BlockArgs) (x : Tensor)
    (h : (blocksLoop width_coefficient depth_divisor min_depth depth_coefficient
      drop_connect_rate l x).2.2 = none) :
    (blocksLoop width_coefficient depth_divisor min_depth depth_coefficient
      drop_connect_rate l x).1 =
      l.map (fun ba => (stageCalls width_coefficient depth_divisor min_depth
        depth_coefficient ba).1) := by
  induction l generalizing x with
  | nil => rfl
  | cons ba rest ih =>
    by_cases hba : ba.num_repeat ≤ 0
    · rw [blocksLoop, if_pos hba] at h
      simp at h
    · simp only [blocksLoop, if_neg hba, List.map_cons] at h ⊢
      rw [ih _ h]

/-- Claim C5: the assembler rewrites each stage's `BlockArgs` in place —
`input_filters` and `output_filters` become their `round_filters` values and
`num_repeat` its `round_repeats` value before the stage's first block is
emitted (the first emitted call carries exactly the rescaled values and the
original strides) — and for stages whose rescaled `num_repeat` exceeds 1,
`input_filters` is overwritten with `output_filters` and `strides` with
`[1, 1]`, so every subsequent repeat is built with unit strides and equal
filter counts; a successful build returns the caller's list elementwise
replaced by these mutated records (the builder itself is a pure function of
its arguments and holds no other state). -/
theorem c5_blockargs_mutation (width_coefficient depth_divisor : ℚ)
    (min_depth : Option ℚ) (depth_coefficient : ℚ) :
    (∀ ba : BlockArgs,
      (stageCalls width_coefficient depth_divisor min_depth depth_coefficient ba).2.head? =
        some ⟨round_filters ba.input_filters width_coefficient depth_divisor min_depth,
          round_filters ba.output_filters width_coefficient depth_divisor min_depth,
          ba.kernel_size, ba.strides, ba.expand_ratio, ba.se_ratio, ba.identity_skip⟩ ∧
      (stageCalls width_coefficient depth_divisor min_depth depth_coefficient ba).1.output_filters =
        round_filters ba.output_filters width_coefficient depth_divisor min_depth ∧
      (stageCalls width_coefficient depth_divisor min_depth depth_coefficient ba).1.num_repeat =
        round_repeats ba.num_repeat depth_coefficient ∧
      (1 < round_repeats ba.num_repeat depth_coefficient →
        (stageCalls width_coefficient depth_divisor min_depth depth_coefficient ba).1.input_filters =
          round_filters ba.output_filters width_coefficient depth_divisor min_depth ∧
        (stageCalls width_coefficient depth_divisor min_depth depth_coefficient ba).1.strides = [1, 1] ∧
        ∀ c ∈ (stageCalls width_coefficient depth_divisor min_depth depth_coefficient ba).2.tail,
          c.input_filters = round_filters ba.output_filters width_coefficient depth_divisor min_depth ∧
          c.output_filters = round_filters ba.output_filters width_coefficient depth_divisor min_depth ∧
          c.strides = [1, 1])) ∧
    (∀ (input_shape : Option (ℤ × ℤ × ℤ)) (l : List BlockArgs)
      (include_top : Bool) (weights pooling : Option String)
      (classes dropout_rate drop_connect_rate : ℚ) (default_size : Option ℤ)
      (n : ℕ) (r : BuildResult),
      EfficientNet input_shape l width_coefficient depth_coefficient include_top
        weights pooling classes dropout_rate drop_connect_rate depth_divisor
        min_depth default_size = (n, .ok r) →
      r.blockArgsAfter = l.map (fun ba => (stageCalls width_coefficient
        depth_divisor min_depth depth_coefficient ba).1)) := by
  constructor
  · intro ba
    refine ⟨rfl, ?_, ?_, ?_⟩
    · by_cases h : 1 < round_repeats ba.num_repeat depth_coefficient <;>
        simp [stageCalls, h]
    · by_cases h : 1 < round_repeats ba.num_repeat depth_coefficient <;>
        simp [stageCalls, h]
    · intro h
      refine ⟨by simp [stageCalls, h], by simp [stageCalls, h], ?_⟩
      intro c hc
      simp only [stageCalls, h, if_pos, List.tail_cons] at hc
      have := List.eq_of_mem_replicate hc
      subst this
      exact ⟨by simp [h], by simp [h], by simp [h]⟩
  · intro input_shape l include_top weights pooling classes dropout_rate
      drop_connect_rate default_size n r hok
    simp only [EfficientNet] at hok
    split at hok
    · simp at hok
    · rcases hblv : blocksLoop width_coefficient depth_divisor min_depth
          depth_coefficient drop_connect_rate l
          (Tensor.swish (Tensor.batchNorm (Tensor.conv2d
            (round_filters 32 width_coefficient depth_divisor min_depth)
            [3, 3] [2, 2] false Tensor.input))) with ⟨l2, x2, e2⟩
      have hmut := blocksLoop_mutated width_coefficient depth_divisor min_depth
        depth_coefficient drop_connect_rate l
        (Tensor.swish (Tensor.batchNorm (Tensor.conv2d
          (round_filters 32 width_coefficient depth_divisor min_depth)
          [3, 3] [2, 2] false Tensor.input)))
      rw [hblv] at hok hmut
      cases e2 with
      | some e =>
        simp only [Prod.mk.injEq] at hok
        exact absurd hok.2 (by simp)
      | none =>
        have hl2 : l2 = l.map (fun ba => (stageCalls width_coefficient
            depth_divisor min_depth depth_coefficient ba).1) := hmut rfl
        simp only at hok
        have hr : r.blockArgsAfter = l2 := by
          split at hok
          · split at hok
            · simp only [Prod.mk.injEq, Except.ok.injEq] at hok
              rw [← hok.2]
            · simp only [Prod.mk.injEq] at hok
              exact absurd hok.2 (by simp)
          · simp only [Prod.mk.injEq, Except.ok.injEq] at hok
            rw [← hok.2]
        rw [hr, hl2]

unseal Rat.mul Rat.inv Rat.add Rat.sub Rat.ofScientific in
/-- Witness for claim C5: a repeated stage (nominal repeats 2, depth
coefficient 1) has its `input_filters` overwritten with the rescaled
`output_filters` and its strides reset to `[1, 1]`, and a concrete
successful classification build returns the mapped stage list. -/
theorem c5_blockargs_mutation_witness :
    (stageCalls 1 8 none 1 ⟨16, 16, 3, [2, 2], 2, none, 1, true⟩).1.input_filters =
      round_filters 16 1 8 none ∧
    (stageCalls 1 8 none 1 ⟨16, 16, 3, [2, 2], 2, none, 1, true⟩).1.strides = [1, 1] ∧
    (BuildResult.mk []
      (Tensor.activation "softmax" (Tensor.dense 1000 (Tensor.globalAvgPool
        (Tensor.swish (Tensor.batchNorm (Tensor.conv2d (round_filters 1280 1 1 none)
          [1, 1] [1, 1] false
          (Tensor.swish (Tensor.batchNorm (Tensor.conv2d (round_filters 32 1 8 none)
            [3, 3] [2, 2] false Tensor.input)))))))))).blockArgsAfter =
      ([] : List BlockArgs).map (fun ba => (stageCalls 1 8 none 1 ba).1) := by
  have h1 := (c5_blockargs_mutation 1 8 none 1).1 ⟨16, 16, 3, [2, 2], 2, none, 1, true⟩
  have h2 := h1.2.2.2 (by decide)
  exact ⟨h2.1, h2.2.1,
    (c5_blockargs_mutation 1 8 none 1).2 none [] true none none 1000 0 0 none 9 _ rfl⟩

theorem getD_map_range (f : ℕ → ℚ) (N m : ℕ) (h : m < N) :
    ((List.range N).map f).getD m 0 = f m := by
  rw [List.getD_eq_getElem?_getD, List.getElem?_map, List.getElem?_range h]
  rfl

theorem broadcastDim_one_right (a : ℕ) : broadcastDim a 1 = some a := by
  unfold broadcastDim
  split_ifs <;> simp_all

theorem broadcastDim_one_left (a : ℕ) : broadcastDim 1 a = some a := by
  unfold broadcastDim
  split_ifs <;> simp_all

theorem broadcastDim_self (a : ℕ) : broadcastDim a a = some a := by
  unfold broadcastDim
  simp

theorem flat_decomp (n s1 : ℕ) :
    (n / (s1 * 3) * s1 + n / 3 % s1) * 3 + n % 3 = n := by
  have h1 : n / (s1 * 3) = n / 3 / s1 := by
    rw [Nat.div_div_eq_div_mul, Nat.mul_comm]
  rw [h1]
  calc (n / 3 / s1 * s1 + n / 3 % s1) * 3 + n % 3
      = 3 * (s1 * (n / 3 / s1) + n / 3 % s1) + n % 3 := by ring
    _ = 3 * (n / 3) + n % 3 := by rw [Nat.div_add_mod]
    _ = n := Nat.div_add_mod n 3

theorem broadcastOp_eq (op : ℚ → ℚ → ℚ) (x y : NpArray)
    (a0 a1 a2 b0 b1 b2 d0 d1 d2 : ℕ)
    (hx : x.shape = [a0, a1, a2]) (hy : y.shape = [b0, b1, b2])
    (h0 : broadcastDim a0 b0 = some d0) (h1 : broadcastDim a1 b1 = some d1)
    (h2 : broadcastDim a2 b2 = some d2) :
    broadcastOp op x y = .ok ⟨[d0, d1, d2], (List.range (d0 * (d1 * d2))).map (fun n =>
      op (get3 x a1 a2 (bIdx a0 (n / (d1 * d2))) (bIdx a1 (n / d2 % d1)) (bIdx a2 (n % d2)))
         (get3 y b1 b2 (bIdx b0 (n / (d1 * d2))) (bIdx b1 (n / d2 % d1)) (bIdx b2 (n % d2))))⟩ := by
  unfold broadcastOp
  rw [hx, hy]
  simp only [h0, h1, h2]

theorem get3_flat (z : NpArray) (s0 s1 : ℕ) (n : ℕ) (hn : n < s0 * (s1 * 3)) :
    get3 z s1 3 (bIdx s0 (n / (s1 * 3))) (bIdx s1 (n / 3 % s1)) (bIdx 3 (n % 3)) =
      z.data.getD n 0 := by
  unfold get3
  have hb3 : bIdx 3 (n % 3) = n % 3 := by
    unfold bIdx
    norm_num
  have hb1 : bIdx s1 (n / 3 % s1) = n / 3 % s1 := by
    unfold bIdx
    split_ifs with h
    · subst h
      simp [Nat.mod_one]
    · rfl
  have hb0 : bIdx s0 (n / (s1 * 3)) = n / (s1 * 3) := by
    unfold bIdx
    split_ifs with h
    · subst h
      exact (Nat.div_eq_of_lt (by omega)).symm
    · rfl
  rw [hb3, hb1, hb0, flat_decomp]

theorem get3_vec_last (v : List ℚ) (i j k : ℕ) :
    get3 ⟨[1, 1, 3], v⟩ 1 3 (bIdx 1 i) (bIdx 1 j) (bIdx 3 k) = v.getD k 0 := by
  simp [get3, bIdx]

theorem get3_vec_first (v : List ℚ) (i j k : ℕ) :
    get3 ⟨[3, 1, 1], v⟩ 1 1 (bIdx 3 i) (bIdx 1 j) (bIdx 1 k) = v.getD i 0 := by
  simp [get3, bIdx]

theorem preprocess_channels_last (s0 s1 : ℕ) (x : NpArray)
    (hx : x.shape = [s0, s1, 3]) (df : String)
    (hdf : ¬ df = "channels_first") :
    ∃ y, preprocess_input x df = .ok y ∧ y.shape = [s0, s1, 3] ∧
      y.data.length = s0 * (s1 * 3) ∧
      ∀ n, n < s0 * (s1 * 3) → y.data.getD n 0 =
        (x.data.getD n 0 - IMAGENET_MEAN.getD (n % 3) 0) /
          IMAGENET_STDDEV.getD (n % 3) 0 := by
  have h1 := broadcastOp_eq (fun a b => a - b) x ⟨[1, 1, 3], IMAGENET_MEAN⟩
    s0 s1 3 1 1 3 s0 s1 3 hx rfl (broadcastDim_one_right s0)
    (broadcastDim_one_right s1) (broadcastDim_self 3)
  have h2 := broadcastOp_eq (fun a b => a / b)
    ⟨[s0, s1, 3], (List.range (s0 * (s1 * 3))).map (fun n =>
      get3 x s1 3 (bIdx s0 (n / (s1 * 3))) (bIdx s1 (n / 3 % s1)) (bIdx 3 (n % 3)) -
        get3 ⟨[1, 1, 3], IMAGENET_MEAN⟩ 1 3 (bIdx 1 (n / (s1 * 3))) (bIdx 1 (n / 3 % s1)) (bIdx 3 (n % 3)))⟩
    ⟨[1, 1, 3], IMAGENET_STDDEV⟩
    s0 s1 3 1 1 3 s0 s1 3 rfl rfl (broadcastDim_one_right s0)
    (broadcastDim_one_right s1) (broadcastDim_self 3)
  have hstep : preprocess_input x df = .ok ⟨[s0, s1, 3],
      (List.range (s0 * (s1 * 3))).map (fun n =>
        get3 ⟨[s0, s1, 3], (List.range (s0 * (s1 * 3))).map (fun n =>
            get3 x s1 3 (bIdx s0 (n / (s1 * 3))) (bIdx s1 (n / 3 % s1)) (bIdx 3 (n % 3)) -
              get3 ⟨[1, 1, 3], IMAGENET_MEAN⟩ 1 3 (bIdx 1 (n / (s1 * 3))) (bIdx 1 (n / 3 % s1)) (bIdx 3 (n % 3)))⟩
          s1 3 (bIdx s0 (n / (s1 * 3))) (bIdx s1 (n / 3 % s1)) (bIdx 3 (n % 3)) /
        get3 ⟨[1, 1, 3], IMAGENET_STDDEV⟩ 1 3 (bIdx 1 (n / (s1 * 3))) (bIdx 1 (n / 3 % s1)) (bIdx 3 (n % 3)))⟩ := by
    unfold preprocess_input
    simp only [if_neg (show ¬(x.shape.length ≠ 3) by rw [hx]; simp),
      if_neg (show ¬(x.shape.getLastD 0 ≠ 3) by rw [hx]; simp),
      if_neg hdf, h1, h2]
  refine ⟨_, hstep, rfl, by simp, ?_⟩
  intro n hn
  rw [getD_map_range _ _ _ hn, get3_flat _ s0 s1 n hn, getD_map_range _ _ _ hn,
    get3_flat x s0 s1 n hn, get3_vec_last, get3_vec_last]

theorem preprocess_channels_first (s1 : ℕ) (x : NpArray)
    (hx : x.shape = [3, s1, 3]) :
    ∃ y, preprocess_input x "channels_first" = .ok y ∧ y.shape = [3, s1, 3] ∧
      y.data.length = 3 * (s1 * 3) ∧
      ∀ n, n < 3 * (s1 * 3) → y.data.getD n 0 =
        (x.data.getD n 0 - IMAGENET_MEAN.getD (n / (s1 * 3)) 0) /
          IMAGENET_STDDEV.getD (n / (s1 * 3)) 0 := by
  have h1 := broadcastOp_eq (fun a b => a - b) x ⟨[3, 1, 1], IMAGENET_MEAN⟩
    3 s1 3 3 1 1 3 s1 3 hx rfl (broadcastDim_self 3)
    (broadcastDim_one_right s1) (broadcastDim_one_right 3)
  have h2 := broadcastOp_eq (fun a b => a / b)
    ⟨[3, s1, 3], (List.range (3 * (s1 * 3))).map (fun n =>
      get3 x s1 3 (bIdx 3 (n / (s1 * 3))) (bIdx s1 (n / 3 % s1)) (bIdx 3 (n % 3)) -
        get3 ⟨[3, 1, 1], IMAGENET_MEAN⟩ 1 1 (bIdx 3 (n / (s1 * 3))) (bIdx 1 (n / 3 % s1)) (bIdx 1 (n % 3)))⟩
    ⟨[3, 1, 1], IMAGENET_STDDEV⟩
    3 s1 3 3 1 1 3 s1 3 rfl rfl (broadcastDim_self 3)
    (broadcastDim_one_right s1) (broadcastDim_one_right 3)
  have hstep : preprocess_input x "channels_first" = .ok ⟨[3, s1, 3],
      (List.range (3 * (s1 * 3))).map (fun n =>
        get3 ⟨[3, s1, 3], (List.range (3 * (s1 * 3))).map (fun n =>
            get3 x s1 3 (bIdx 3 (n / (s1 * 3))) (bIdx s1 (n / 3 % s1)) (bIdx 3 (n % 3)) -
              get3 ⟨[3, 1, 1], IMAGENET_MEAN⟩ 1 1 (bIdx 3 (n / (s1 * 3))) (bIdx 1 (n / 3 % s1)) (bIdx 1 (n % 3)))⟩
          s1 3 (bIdx 3 (n / (s1 * 3))) (bIdx s1 (n / 3 % s1)) (bIdx 3 (n % 3)) /
        get3 ⟨[3, 1, 1], IMAGENET_STDDEV⟩ 1 1 (bIdx 3 (n / (s1 * 3))) (bIdx 1 (n / 3 % s1)) (bIdx 1 (n % 3)))⟩ := by
    unfold preprocess_input
    simp only [if_neg (show ¬(x.shape.length ≠ 3) by rw [hx]; simp),
      if_neg (show ¬(x.shape.getLastD 0 ≠ 3) by rw [hx]; simp),
      eq_self_iff_true, if_true, h1, h2]
  refine ⟨_, hstep, rfl, by simp, ?_⟩
  intro n hn
  rw [getD_map_range _ _ _ hn, get3_flat _ 3 s1 n hn, getD_map_range _ _ _ hn,
    get3_flat x 3 s1 n hn, get3_vec_first, get3_vec_first]

unseal Rat.mul Rat.inv Rat.add Rat.sub Rat.ofScientific in
/-- Claim C10 as stated is false on the code: the channels_first input of
shape (1, 1, 3) passes both assertions, yet numpy broadcasting against the
(3, 1, 1) mean changes its shape to (3, 1, 3); and the accepted channels_first
input of shape (5, 1, 3) does not return at all — broadcasting fails. -/
theorem c10_preprocess_counterexample :
    preprocess_input ⟨[1, 1, 3], [0, 0, 0]⟩ "channels_first" =
      .ok ⟨[3, 1, 3], [-485/229, -485/229, -485/229, -57/28, -57/28, -57/28,
        -406/225, -406/225, -406/225]⟩ ∧
    ¬ ([3, 1, 3] : List ℕ) = [1, 1, 3] ∧
    preprocess_input ⟨[5, 1, 3], List.replicate 15 0⟩ "channels_first" =
      .error "ValueError: operands could not be broadcast together" := by
  refine ⟨by decide, by decide, by decide⟩

/-- Claim C10, amended: `preprocess_input` fails its assertions for every
input without exactly 3 dimensions or with a last axis other than 3,
regardless of data format; for accepted inputs it returns the elementwise
`(x - mean) / std` with the ImageNet constants and an unchanged shape under
`channels_last` broadcasting (mean indexed by the last axis), and under
`channels_first` only when the first axis has extent 3 (mean indexed by the
first axis).  (As stated the claim fails for accepted channels_first inputs
whose first axis is not 3: extent 1 broadcasts to a changed shape (3, H, 3)
and other extents raise a broadcasting `ValueError`.) -/
theorem c10_preprocess_amended (x : NpArray) (df : String) :
    ((x.shape.length ≠ 3 ∨ x.shape.getLastD 0 ≠ 3) →
      preprocess_input x df = .error "AssertionError") ∧
    (∀ s0 s1 : ℕ, x.shape = [s0, s1, 3] →
      (¬ df = "channels_first" →
        ∃ y, preprocess_input x df = .ok y ∧ y.shape = x.shape ∧
          y.data.length = s0 * (s1 * 3) ∧
          ∀ n, n < s0 * (s1 * 3) → y.data.getD n 0 =
            (x.data.getD n 0 - IMAGENET_MEAN.getD (n % 3) 0) /
              IMAGENET_STDDEV.getD (n % 3) 0) ∧
      (df = "channels_first" → s0 = 3 →
        ∃ y, preprocess_input x df = .ok y ∧ y.shape = x.shape ∧
          y.data.length = 3 * (s1 * 3) ∧
          ∀ n, n < 3 * (s1 * 3) → y.data.getD n 0 =
            (x.data.getD n 0 - IMAGENET_MEAN.getD (n / (s1 * 3)) 0) /
              IMAGENET_STDDEV.getD (n / (s1 * 3)) 0)) := by
  constructor
  · intro h
    unfold preprocess_input
    rcases h with h | h
    · rw [if_pos h]
    · by_cases h1 : x.shape.length ≠ 3
      · rw [if_pos h1]
      · rw [if_neg h1, if_pos h]
  · intro s0 s1 hx
    constructor
    · intro hdf
      obtain ⟨y, hy, hsh, hlen, hdata⟩ := preprocess_channels_last s0 s1 x hx df hdf
      exact ⟨y, hy, by rw [hsh, hx], hlen, hdata⟩
    · intro hdf hs0
      subst hdf
      subst hs0
      obtain ⟨y, hy, hsh, hlen, hdata⟩ := preprocess_channels_first s1 x hx
      exact ⟨y, hy, by rw [hsh, hx], hlen, hdata⟩

unseal Rat.mul Rat.inv Rat.add Rat.sub Rat.ofScientific in
/-- Witness for the amended claim C10: a rank-2 input fails the dimension
assertion. -/
theorem c10_preprocess_amended_witness :
    preprocess_input ⟨[2, 2], [0]⟩ "channels_last" = .error "AssertionError" :=
  (c10_preprocess_amended ⟨[2, 2], [0]⟩ "channels_last").1 (Or.inl (by decide))
